import Mathlib

/-!
Verification of the Merlin command-orchestration pipeline.

Shallow embedding of:
* `app/session_manager.py`  (bounded per-document conversation memory, LRU store)
* `app/models/ai_response.py` (response variants and constructors)
* `app/core/ai_translator.py` (classifier, router, decomposer, translate)
* `app/api/websocket.py` (`execute_with_streaming`, the streaming orchestrator)

External collaborators (the structured-call capability, the tabular engine,
the YAML configuration) are parameters of the embedding, matching the
boundary drawn by the design: marker lists and tool groups are opaque
configuration, the capability and the engine are injected oracles.
-/

namespace Merlin

/-! ## Python string primitives -/

/-- Python's `needle in hay` substring test (on the character sequence). -/
def strContains (hay needle : String) : Bool :=
  (List.range (hay.data.length + 1)).any
    (fun i => needle.data.isPrefixOf (hay.data.drop i))

/-- Python's `s.lower()` (ASCII case folding, written on the character
list so that it reduces in the kernel). -/
def pyLower (s : String) : String := ⟨s.data.map Char.toLower⟩

def isWsC (c : Char) : Bool := c = ' ' || c = '\t' || c = '\n' || c = '\r'

/-- Python's `s.strip()` (ASCII whitespace). -/
def pyStrip (s : String) : String :=
  ⟨((s.data.dropWhile isWsC).reverse.dropWhile isWsC).reverse⟩

/-- Split a character list on a separator character. -/
def splitOnChar (sep : Char) : List Char → List (List Char)
  | [] => [[]]
  | c :: rest =>
      match splitOnChar sep rest with
      | [] => [[]]
      | l :: ls => if c = sep then [] :: l :: ls else (c :: l) :: ls

/-- Python's `a or dflt` on an optional string: `None` and `""` are falsy. -/
def pyOr (o : Option String) (dflt : String) : String :=
  match o with
  | none => dflt
  | some s => if s = "" then dflt else s

/-- Python's slice `l[-m:]`.  NOTE the `-0` pitfall: for `m = 0` the slice is
`l[0:]`, the whole list, not the empty list. -/
def pySliceLast (m : Nat) (l : List α) : List α :=
  if m = 0 then l else l.drop (l.length - m)

/-! ## Session memory  (`app/session_manager.py`, class `SessionManager`) -/

/-- One history message, `{"role": ..., "content": ...}`. -/
structure Msg where
  role : String
  content : String
deriving DecidableEq, Repr

/-- `SessionManager` state: the two capacity constants and the `OrderedDict`
cache, front = least recently used, back = most recently used. -/
structure SMState where
  maxSessions : Nat
  maxRounds : Nat
  cache : List (String × List Msg)
deriving DecidableEq, Repr

def initSM (maxSessions maxRounds : Nat) : SMState :=
  ⟨maxSessions, maxRounds, []⟩

/-- `get_history`: missing key yields `[]` and leaves the store unchanged;
otherwise the entry is moved to the most-recently-used end and a copy of its
history is returned. -/
def get_history (s : SMState) (file_id : String) : List Msg × SMState :=
  match s.cache.find? (fun e => e.1 == file_id) with
  | none => ([], s)
  | some e =>
      (e.2, { s with cache := s.cache.eraseP (fun x => x.1 == file_id) ++ [(file_id, e.2)] })

/-- `_enforce_cache_limit`: pop the least-recently-used entry (the front)
while the store holds more than `maxSessions` entries. -/
def enforce_cache_limit (maxSessions : Nat) : List (String × List Msg) → List (String × List Msg)
  | [] => []
  | e :: rest =>
      if maxSessions < (e :: rest).length then enforce_cache_limit maxSessions rest
      else e :: rest

/-- Write a key's value in the ordered cache: an existing key keeps its
position (Python dict item assignment), a fresh key is appended at the
most-recently-used end. -/
def setKey (cache : List (String × List Msg)) (file_id : String) (v : List Msg) :
    List (String × List Msg) :=
  if cache.any (fun e => e.1 == file_id) then
    cache.map (fun e => if e.1 == file_id then (file_id, v) else e)
  else cache ++ [(file_id, v)]

/-- `update_history`: read (marking most-recently-used), append one round,
truncate with the Python slice `history[-max_messages:]` when over the cap,
write back, evict while over the session capacity. -/
def update_history (s : SMState) (file_id user_msg assistant_msg : String) : SMState :=
  let got := get_history s file_id
  let history1 := got.1 ++ [⟨"user", user_msg⟩, ⟨"assistant", assistant_msg⟩]
  let max_messages := s.maxRounds * 2
  let history2 := if history1.length > max_messages then pySliceLast max_messages history1
                  else history1
  let cache1 := setKey got.2.cache file_id history2
  { s with cache := enforce_cache_limit s.maxSessions cache1 }

/-- `clear_history`: delete the entry if present. -/
def clear_history (s : SMState) (file_id : String) : SMState :=
  if s.cache.any (fun e => e.1 == file_id) then
    { s with cache := s.cache.eraseP (fun e => e.1 == file_id) }
  else s

/-- The public session-memory operations. -/
inductive SMOp where
  | get (file_id : String)
  | update (file_id user_msg assistant_msg : String)
  | clear (file_id : String)
deriving DecidableEq, Repr

def applySMOp (s : SMState) : SMOp → SMState
  | .get fid => (get_history s fid).2
  | .update fid u a => update_history s fid u a
  | .clear fid => clear_history s fid

def runSMOps (s : SMState) (ops : List SMOp) : SMState :=
  ops.foldl applySMOp s

/-- The history stored for a fresh document after one append: one round,
then the cap applied exactly as `update_history` applies it. -/
def newRound (maxRounds : Nat) (u a : String) : List Msg :=
  let history1 : List Msg := [⟨"user", u⟩, ⟨"assistant", a⟩]
  if history1.length > maxRounds * 2 then pySliceLast (maxRounds * 2) history1 else history1

/-- Bool check: every stored history respects the `2 * maxRounds` cap. -/
def histBounded (s : SMState) : Bool :=
  s.cache.all (fun e => e.2.length ≤ 2 * s.maxRounds)

/-! ## Command classifier (`app/core/ai_translator.py`) -/

/-- `_is_complex_command`: any configured complex marker (case-insensitive)
makes the command compound; otherwise commands of length < 50 are simple and
longer ones are routed through the coordinator. -/
def is_complex_command (complex_markers : List String) (command : String) : Bool :=
  let command_lower := pyLower command
  if complex_markers.any (fun marker => strContains command_lower (pyLower marker)) then true
  else if command.length < 50 then false
  else true

/-- The continuation words hard-coded in `_is_contextual_command`. -/
def continuation_markers : List String :=
  ["也", "还", "再", "同样", "一样", "继续", "接着", "另外", "同时"]

/-- Truthiness of `re.findall(r'["""](.*?)["""]', command)`: the character
class in the source is three ASCII double quotes, and `.` does not match a
newline, so a match exists iff some line holds at least two `"` characters. -/
def has_quoted_term (command : String) : Bool :=
  (splitOnChar '\n' command.data).any (fun line => 2 ≤ (line.filter (fun c => c = '"')).length)

/-- `_is_contextual_command`: configured contextual marker, hard-coded
continuation word, quoted term with non-empty history, or a command shorter
than 7 characters with non-empty history. -/
def is_contextual_command (contextual_markers : List String) (command : String)
    (history : List Msg) : Bool :=
  let command_lower := pyLower command
  if contextual_markers.any (fun marker => strContains command_lower (pyLower marker)) then true
  else if continuation_markers.any (fun marker => strContains command marker) then true
  else if has_quoted_term command && !history.isEmpty then true
  else if command.length < 7 && !history.isEmpty then true
  else false

/-! ## AI response model (`app/models/ai_response.py`) -/

/-- `AIResponseType` enumeration. -/
inductive AIResponseType where
  | tool_calls
  | clarification
  | help
  | friendly_message
  | error
  | task_list
deriving DecidableEq, Repr

/-- A parsed tool call: name plus parameter map (opaque scalar values). -/
structure ToolCall where
  tool_name : String
  parameters : List (String × String)
deriving DecidableEq, Repr

/-- `ClarificationRequest`. -/
structure ClarificationRequest where
  question : String
  options : List String
  original_command : Option String := none
  file_id : Option String := none
deriving DecidableEq, Repr

/-- `AIResponse`: the flat record with one `response_type` tag and optional
payload fields, exactly as the pydantic model declares them. -/
structure AIResponse where
  success : Bool
  response_type : AIResponseType
  tool_calls : Option (List ToolCall) := none
  clarification : Option ClarificationRequest := none
  task_list : Option (List String) := none
  message : Option String := none
  error : Option String := none
  error_code : Option String := none
deriving DecidableEq, Repr

def create_tool_calls_response (tool_calls : List ToolCall) : AIResponse :=
  { success := true, response_type := .tool_calls, tool_calls := some tool_calls }

def create_clarification_response (question : String) (options : List String) : AIResponse :=
  { success := true, response_type := .clarification,
    clarification := some { question := question, options := options } }

def create_help_response (message : String) : AIResponse :=
  { success := true, response_type := .help, message := some message }

def create_friendly_message_response (message : String) : AIResponse :=
  { success := true, response_type := .friendly_message, message := some message }

def create_task_list_response (tasks : List String) : AIResponse :=
  { success := true, response_type := .task_list, task_list := some tasks }

def create_error_response (err : String) (error_code : Option String) : AIResponse :=
  { success := false, response_type := .error, error := some err, error_code := error_code }

def is_tool_calls_response (r : AIResponse) : Bool := r.response_type == .tool_calls

def is_clarification_response (r : AIResponse) : Bool := r.response_type == .clarification

def is_error_response (r : AIResponse) : Bool := r.response_type == .error

def is_task_list_response (r : AIResponse) : Bool := r.response_type == .task_list

/-- Shallow model of a JSON object returned by `json.loads` on a tool call's
argument string, exposing exactly the fields the code reads: the
clarification question/options, the coordinator's `tasks` array, and the raw
parameter map used for ordinary tool calls. -/
structure ArgObj where
  question_to_user : Option String := none
  ambiguous_options : Option (List String) := none
  tasks : Option (List String) := none
  params : List (String × String) := []
deriving DecidableEq, Repr

/-- One raw capability tool call: `tc.function.name` and
`tc.function.arguments`; `none` arguments model a `json.loads` failure
(`JSONDecodeError`). -/
structure RawFunction where
  name : String
  arguments : Option ArgObj
deriving DecidableEq, Repr

structure RawToolCall where
  function : RawFunction
deriving DecidableEq, Repr

/-- The capability's chat message: list of tool calls plus free text. -/
structure OpenAIMessage where
  tool_calls : List RawToolCall
  content : Option String := none
deriving DecidableEq, Repr

/-- Parse every raw tool call of a message; a single malformed argument
payload fails the whole batch (the `json.loads` exception aborts the loop). -/
def parseToolCalls : List RawToolCall → Option (List ToolCall)
  | [] => some []
  | tc :: rest =>
      match tc.function.arguments with
      | none => none
      | some args =>
          match parseToolCalls rest with
          | none => none
          | some l => some ({ tool_name := tc.function.name, parameters := args.params } :: l)

/-- `AIResponse.from_openai_response`: no tool call yields a friendly
message (Python `or` supplies the default apology for `None` or `""`); a
first call named `ask_clarification_question` short-circuits to a
clarification; otherwise all calls are parsed into `ToolCalls`, and any
JSON parse failure yields the `JSON_PARSE_ERROR` error response (the
exception detail string is abstracted). -/
def from_openai_response (message : OpenAIMessage) : AIResponse :=
  match message.tool_calls with
  | [] => create_friendly_message_response (pyOr message.content "AI 未返回有效响应")
  | first :: _ =>
      if first.function.name = "ask_clarification_question" then
        match first.function.arguments with
        | none => create_error_response "AI 响应格式错误" (some "JSON_PARSE_ERROR")
        | some args =>
            create_clarification_response (args.question_to_user.getD "")
              (args.ambiguous_options.getD [])
      else
        match parseToolCalls message.tool_calls with
        | none => create_error_response "AI 响应格式错误" (some "JSON_PARSE_ERROR")
        | some tcs => create_tool_calls_response tcs

/-! ## AI translator (`app/core/ai_translator.py`, class `AITranslator`) -/

/-- One tool group from the YAML configuration: trigger keywords plus the
member tool names. -/
structure ToolGroup where
  keywords : List String
  tools : List String
deriving DecidableEq, Repr

/-- The opaque external configuration the translator reads: routing marker
lists, the tool groups in declaration order, the full tool catalog, and the
help text. -/
structure Env where
  complex_markers : List String
  contextual_markers : List String
  tool_groups : List (String × ToolGroup)
  all_tools : List String
  help_message : String

/-- The structured-call capability, injected as an oracle.  Each call either
returns a chat message or raises, modelled by `Except` with the exception
text (a rate-limit signal is an exception whose text contains `429` or
`rate_limit`).  `single` receives the command, the table headers, the
history messages placed between system prompt and user turn, and the
candidate tool names chosen by routing. -/
structure Capability where
  coordinator : String → List Msg → Except String OpenAIMessage
  router : String → Except String OpenAIMessage
  single : String → List String → List Msg → List String → Except String OpenAIMessage

/-- The help phrases hard-coded in `_translate_single_task`. -/
def help_keywords : List String :=
  ["帮助", "help", "你能做什么", "有什么功能", "怎么用", "功能列表"]

/-- `_detect_tool_group`: first group, in declaration order, one of whose
keywords occurs in the lower-cased command. -/
def detect_tool_group (env : Env) (command : String) : Option String :=
  let command_lower := pyLower command
  (env.tool_groups.find?
    (fun g => g.2.keywords.any (fun keyword => strContains command_lower keyword))).map
    (fun g => g.1)

def lookupGroup (groups : List (String × ToolGroup)) (name : String) : Option ToolGroup :=
  (groups.find? (fun g => g.1 == name)).map (fun g => g.2)

/-- `_call_ai_router`: forced-choice structured call over the `route_to_*`
selectors; any exception or non-selector answer degrades to `none`. -/
def call_ai_router (cap : Capability) (command : String) : Option String :=
  match cap.router command with
  | .error _ => none
  | .ok msg =>
      match msg.tool_calls with
      | [] => none
      | tc :: _ =>
          if "route_to_".isPrefixOf tc.function.name then
            some (tc.function.name.replace "route_to_" "")
          else none

/-- `_call_coordinator`: forced call of `execute_tasks_in_order`; any
exception, missing call, wrong tool, parse failure or empty task list is
"decomposition unavailable" (`none`). -/
def call_coordinator (cap : Capability) (command : String) (history : List Msg) :
    Option (List String) :=
  match cap.coordinator command history with
  | .error _ => none
  | .ok msg =>
      match msg.tool_calls with
      | [] => none
      | tc :: _ =>
          if tc.function.name = "execute_tasks_in_order" then
            match tc.function.arguments with
            | none => none
            | some args =>
                let tasks := args.tasks.getD []
                if tasks.isEmpty then none else some tasks
          else none

/-- `_translate_single_task`: help short-circuit, then two-level routing
(keyword hit, AI router, full catalog), then the structured call; any
exception from the capability call becomes the `TRANSLATION_FAILED` error
response (the blanket `except` in the source). -/
def translate_single_task (env : Env) (cap : Capability) (user_command : String)
    (headers : List String) (history : List Msg) : AIResponse :=
  if help_keywords.contains (pyLower (pyStrip user_command)) then
    create_help_response env.help_message
  else
    let toolsE : Except String (List String) :=
      match detect_tool_group env user_command with
      | some g =>
          match lookupGroup env.tool_groups g with
          | some gr => .ok gr.tools
          | none => .error "KeyError"
      | none =>
          match call_ai_router cap user_command with
          | some g =>
              match lookupGroup env.tool_groups g with
              | some gr => .ok gr.tools
              | none => .error "KeyError"
          | none => .ok env.all_tools
    match toolsE with
    | .error e => create_error_response ("AI翻译失败: " ++ e) (some "TRANSLATION_FAILED")
    | .ok tools =>
        match cap.single user_command headers history tools with
        | .error e => create_error_response ("AI翻译失败: " ++ e) (some "TRANSLATION_FAILED")
        | .ok msg => from_openai_response msg

/-- The history slice attached on path A:
`history[-2:] if history and len(history) >= 2 else history`. -/
def recentRound (history : List Msg) : List Msg :=
  if 2 ≤ history.length then history.drop (history.length - 2) else history

/-- `AITranslator.translate`: classify, then
path A (simple, non-contextual: single translation with the most recent
round of history), path B (simple, contextual: single translation with full
history), or path C (compound: decompose; zero-or-one subtasks falls back
to path B's call; otherwise return the task list).  The outer `except` of
the source is unreachable here because every capability exception is
already materialized inside `call_coordinator` / `translate_single_task`. -/
def translate (env : Env) (cap : Capability) (user_command : String)
    (headers : List String) (history : List Msg) : List AIResponse :=
  let is_complex := is_complex_command env.complex_markers user_command
  let is_contextual := is_contextual_command env.contextual_markers user_command history
  if !is_complex && !is_contextual then
    [translate_single_task env cap user_command headers (recentRound history)]
  else if !is_complex && is_contextual then
    [translate_single_task env cap user_command headers history]
  else
    match call_coordinator cap user_command history with
    | none => [translate_single_task env cap user_command headers history]
    | some tasks =>
        if tasks.length = 1 then
          [translate_single_task env cap user_command headers history]
        else
          [create_task_list_response tasks]

/-! ## Streaming orchestrator (`app/api/websocket.py`, `execute_with_streaming`)

The engine is injected as an oracle over an abstract state type `σ`;
`engine.save(path)` is modelled as storing the current engine state under
the path in a file map.  Progress events keep the `type` tag and the
semantically relevant payload fields of each emitted dict. -/

/-- One emitted progress event. -/
inductive Event where
  | start
  | errorEv (message : String)
  | translating
  | taskSplit (total_tasks : Nat)
  | translatingSubtask (task_index total_tasks : Nat)
  | subtaskTranslateFailed (task_index : Nat) (message : String)
  | subtaskTranslated (task_index : Nat)
  | taskStart (task_index total_tasks : Nat)
  | taskSuccess (task_index : Nat) (message : String)
  | taskError (task_index : Nat) (message : String)
  | infoEv (message : String)
  | helpEv (message : String)
  | clarify (question : String) (options : List String)
  | analysisResult (message : String)
  | hintEv (message : String)
  | saving
  | doneTaskList (success : Bool) (execution_log : List String) (download : Bool)
  | doneAnalysis (execution_log : List String)
  | doneEv (success partSuccess : Bool) (execution_log : List String) (download : Bool)
deriving DecidableEq, Repr

/-- The dict returned by `engine.execute_tool`; absent keys are `none`. -/
structure ExecResult where
  success : Bool
  message : Option String := none
  error : Option String := none
  suggestion : Option String := none
  is_analysis : Bool := false
deriving DecidableEq, Repr

/-- The tabular execution engine, injected as an oracle on states `σ`. -/
structure EngineM (σ : Type) where
  execute_tool : σ → String → List (String × String) → ExecResult × σ

/-- The orchestrator's loop state: engine state, session store, saved
files, `execution_log`, `last_successful_task_idx`, `all_success`, and the
events emitted so far. -/
structure LoopSt (σ : Type) where
  eng : σ
  sm : SMState
  files : List (String × σ)
  log : List String
  lastSuccess : Nat
  allSuccess : Bool
  events : List Event
deriving DecidableEq, Repr

/-- How a loop finished: ran to the end, `break`, or `return` from the
whole handler. -/
inductive LoopExit where
  | normal
  | broke
  | returned
deriving DecidableEq, Repr

def setFile (files : List (String × σ)) (path : String) (v : σ) : List (String × σ) :=
  if files.any (fun e => e.1 == path) then
    files.map (fun e => if e.1 == path then (path, v) else e)
  else files ++ [(path, v)]

def lookupFile (files : List (String × σ)) (path : String) : Option σ :=
  (files.find? (fun e => e.1 == path)).map (fun e => e.2)

/-- `{file_id}_temp_{task_idx}.xlsx` (upload directory abstracted away). -/
def temp_path (file_id : String) (task_idx : Nat) : String :=
  file_id ++ "_temp_" ++ toString task_idx ++ ".xlsx"

/-- `{file_id}_result.xlsx`. -/
def result_path (file_id : String) : String := file_id ++ "_result.xlsx"

/-- `[log for log in execution_log if any needle in log]`. -/
def filterSuccessLogs (needles : List String) (logs : List String) : List String :=
  logs.filter (fun entry => needles.any (fun n => strContains entry n))

def joinSpace : List String → String
  | [] => ""
  | [s] => s
  | s :: rest => s ++ " " ++ joinSpace rest

/-- The repeated "前 N 个任务已成功执行并保存" hint block of the batched
loop: emitted only when a successful task precedes the failure. -/
def appendHint (st : LoopSt σ) : LoopSt σ :=
  if st.lastSuccess > 0 then
    let hint_message := "💡 提示：前 " ++ toString st.lastSuccess ++ " 个任务已成功执行并保存。"
    { st with log := st.log ++ [hint_message], events := st.events ++ [.hintEv hint_message] }
  else st

/-- Inner tool-call loop of the decomposed (interleaved) path
(`websocket.py` lines 220-257): execute each call; on success log, mark the
subtask as last successful, emit `task_success` and append the round to the
session history; on failure log, emit `task_error` and `break` — note the
`break` leaves only this inner loop. -/
def exec_tools_interleaved (E : EngineM σ) (file_id subtask : String) (i : Nat) :
    List ToolCall → LoopSt σ → LoopSt σ
  | [], st => st
  | tc :: rest, st =>
      let res := E.execute_tool st.eng tc.tool_name tc.parameters
      let r := res.1
      let st1 := { st with eng := res.2 }
      if r.success then
        let log_msg := r.message.getD ("✅ 任务 " ++ toString i ++ " 执行成功")
        let st2 := { st1 with
          log := st1.log ++ [log_msg],
          lastSuccess := i,
          events := st1.events ++ [.taskSuccess i log_msg],
          sm := update_history st1.sm file_id subtask log_msg }
        exec_tools_interleaved E file_id subtask i rest st2
      else
        let error_msg := r.error.getD "未知错误"
        { st1 with
          log := st1.log ++ ["❌ 任务 " ++ toString i ++ " 执行失败: " ++ error_msg],
          allSuccess := false,
          events := st1.events ++
            [.taskError i ("❌ 任务 " ++ toString i ++ " 执行失败: " ++ error_msg)] }

/-- Per-subtask loop of the decomposed path (`websocket.py` lines 162-261):
translate subtask `i` with the history visible at that moment, then
dispatch on the first response: empty result advances with `all_success`
cleared; a failed translation emits `subtask_translate_failed` and breaks;
a tool-call response executes immediately and always advances to the next
subtask (even after an execution failure, because the failure `break` is
inside the inner loop); any other successful variant breaks the subtask
loop with `all_success` cleared. -/
def run_subtasks (E : EngineM σ) (Tr : String → List Msg → List AIResponse)
    (file_id : String) (initial_history : List Msg) (total : Nat) :
    Nat → List String → LoopSt σ → LoopSt σ
  | _, [], st => st
  | i, subtask :: rest, st =>
      let current_history := if i > 1 then (get_history st.sm file_id).1 else initial_history
      let sm1 := if i > 1 then (get_history st.sm file_id).2 else st.sm
      let st1 := { st with
        sm := sm1,
        events := st.events ++ [Event.translatingSubtask i total] }
      match Tr subtask current_history with
      | [] => run_subtasks E Tr file_id initial_history total (i + 1) rest
          { st1 with allSuccess := false }
      | tr :: _ =>
          if tr.success = false then
            { st1 with
              allSuccess := false,
              events := st1.events ++ [Event.subtaskTranslateFailed i
                ("❌ 任务 " ++ toString i ++ " 翻译失败: " ++ pyOr tr.error "未知错误")] }
          else
            let st2 := { st1 with
              events := st1.events ++ [Event.subtaskTranslated i, Event.taskStart i total] }
            if is_tool_calls_response tr then
              match tr.tool_calls with
              | some (tc :: tcs) =>
                  run_subtasks E Tr file_id initial_history total (i + 1) rest
                    (exec_tools_interleaved E file_id subtask i (tc :: tcs) st2)
              | _ => { st2 with allSuccess := false }
            else { st2 with allSuccess := false }

/-- Inner tool-call loop of the batched path (`websocket.py` lines
379-462): analysis results end the whole handler as a success; ordinary
successes snapshot the engine state to the task's temp file; a failure
logs, hints and `break`s this inner loop only. -/
def exec_tools_batched (E : EngineM σ) (file_id command : String) (task_idx : Nat) :
    List ToolCall → LoopSt σ → LoopSt σ × LoopExit
  | [], st => (st, .normal)
  | tc :: rest, st =>
      let res := E.execute_tool st.eng tc.tool_name tc.parameters
      let r := res.1
      let st1 := { st with eng := res.2 }
      if r.is_analysis then
        let msg := r.message.getD ""
        let log1 := st1.log ++ [msg]
        let sl := filterSuccessLogs ["✅", "成功", "📊"] log1
        let assistant_summary := if sl.isEmpty then msg else joinSpace sl
        ({ st1 with
            log := log1,
            lastSuccess := task_idx,
            sm := update_history st1.sm file_id command assistant_summary,
            events := st1.events ++ [.analysisResult msg, .doneAnalysis log1] }, .returned)
      else if r.success then
        let st2 := { st1 with
          log := st1.log ++ [r.message.getD ""],
          lastSuccess := task_idx,
          events := st1.events ++
            [.taskSuccess task_idx ("✅ 任务 " ++ toString task_idx ++ ": " ++ r.message.getD "")],
          files := setFile st1.files (temp_path file_id task_idx) res.2 }
        exec_tools_batched E file_id command task_idx rest st2
      else
        let error_message0 := r.error.getD "执行失败"
        let error_message := match r.suggestion with
          | some sg => if sg = "" then error_message0 else error_message0 ++ "\n\n" ++ sg
          | none => error_message0
        let st2 := { st1 with
          allSuccess := false,
          log := st1.log ++ [error_message],
          events := st1.events ++
            [.taskError task_idx ("❌ 任务 " ++ toString task_idx ++ ": " ++ r.error.getD "None")] }
        (appendHint st2, .broke)

/-- Outer loop of the batched path (`websocket.py` lines 302-485):
translation failures break; friendly and help messages are recorded and
skipped; a clarification is emitted with question and options and `return`s
the handler (a missing clarification payload would raise and is handled by
the per-task `except`, which breaks); responses without tool calls are
skipped; after the inner loop, a `broke` result does NOT stop this outer
loop — only `returned` propagates. -/
def run_batched (E : EngineM σ) (file_id command : String) (total : Nat) :
    Nat → List AIResponse → LoopSt σ → LoopSt σ × LoopExit
  | _, [], st => (st, .normal)
  | task_idx, tr :: rest, st =>
      let st0 := { st with events := st.events ++ [.taskStart task_idx total] }
      if tr.success = false then
        let error_msg := pyOr tr.error "未知错误"
        let st1 := { st0 with
          allSuccess := false,
          log := st0.log ++ ["❌ 任务 " ++ toString task_idx ++ " 翻译失败: " ++ error_msg],
          events := st0.events ++
            [.taskError task_idx ("❌ 任务 " ++ toString task_idx ++ " 翻译失败: " ++ error_msg)] }
        (appendHint st1, .broke)
      else if tr.response_type = AIResponseType.friendly_message then
        let message := pyOr tr.message ""
        run_batched E file_id command total (task_idx + 1) rest
          { st0 with log := st0.log ++ [message], events := st0.events ++ [.infoEv message] }
      else if tr.response_type = AIResponseType.help then
        let message := pyOr tr.message ""
        run_batched E file_id command total (task_idx + 1) rest
          { st0 with log := st0.log ++ [message], events := st0.events ++ [.helpEv message] }
      else if is_clarification_response tr then
        match tr.clarification with
        | some c =>
            ({ st0 with events := st0.events ++ [.clarify c.question c.options] }, .returned)
        | none =>
            let error_message := "❌ 任务 " ++ toString task_idx ++ " 执行异常: AttributeError"
            let st1 := { st0 with
              allSuccess := false,
              log := st0.log ++ [error_message],
              events := st0.events ++ [.taskError task_idx error_message] }
            (appendHint st1, .broke)
      else if is_tool_calls_response tr then
        match tr.tool_calls with
        | some (tc :: tcs) =>
            match exec_tools_batched E file_id command task_idx (tc :: tcs) st0 with
            | (st1, .returned) => (st1, .returned)
            | (st1, _) => run_batched E file_id command total (task_idx + 1) rest st1
        | _ => run_batched E file_id command total (task_idx + 1) rest st0
      else
        run_batched E file_id command total (task_idx + 1) rest st0

/-- The handler's output: all events in order, and the final session store,
engine state, file map and execution log. -/
structure WsOut (σ : Type) where
  events : List Event
  sm : SMState
  eng : σ
  files : List (String × σ)
  log : List String
deriving DecidableEq, Repr

/-- Steps 3-5 of the batched path (`websocket.py` lines 487-537): promote
the last temp snapshot (or the current engine state) to the result file,
append the consolidated history round, and emit the final `done` event with
the partial-success flag. -/
def finalize_batched (file_id command : String) (st : LoopSt σ) : WsOut σ :=
  let st1 := if st.lastSuccess > 0 then
      let files2 := match lookupFile st.files (temp_path file_id st.lastSuccess) with
        | some snap => setFile st.files (result_path file_id) snap
        | none => setFile st.files (result_path file_id) st.eng
      { st with events := st.events ++ [.saving], files := files2 }
    else st
  let st2 := if st1.lastSuccess > 0 then
      let sl := filterSuccessLogs ["✅", "成功"] st1.log
      let assistant_summary := if sl.isEmpty then "操作成功完成" else joinSpace sl
      { st1 with sm := update_history st1.sm file_id command assistant_summary }
    else st1
  ⟨st2.events ++ [.doneEv st2.allSuccess (st2.lastSuccess > 0 && !st2.allSuccess) st2.log
      (st2.lastSuccess > 0)], st2.sm, st2.eng, st2.files, st2.log⟩

/-- The decomposed branch (`websocket.py` lines 143-289): emit
`task_split`, fetch the initial history, run the per-subtask loop, save the
current engine state as the result when anything succeeded, and emit the
final `done` (whose payload has no partial-success flag). -/
def run_task_list (E : EngineM σ) (Tr : String → List Msg → List AIResponse)
    (eng0 : σ) (sm1 : SMState) (file_id : String) (task_list : List String)
    (events1 : List Event) : WsOut σ :=
  let total := task_list.length
  let events2 := events1 ++ [.taskSplit total]
  let got := get_history sm1 file_id
  let st0 : LoopSt σ := ⟨eng0, got.2, [], [], 0, true, events2⟩
  let st := run_subtasks E Tr file_id got.1 total 1 task_list st0
  let st1 := if st.lastSuccess > 0 then
      { st with events := st.events ++ [.saving],
                files := setFile st.files (result_path file_id) st.eng }
    else st
  ⟨st1.events ++ [.doneTaskList st1.allSuccess st1.log (st1.lastSuccess > 0)],
    st1.sm, st1.eng, st1.files, st1.log⟩

/-- `execute_with_streaming` with the translator injected (`get_translator`
is a singleton in the source) and the upload registry check outside the
modelled core: fetch history, translate the command, then either iterate a
returned task list (decomposed path) or execute the returned translation
results (batched path). -/
def execute_with_streaming (E : EngineM σ) (Tr : String → List Msg → List AIResponse)
    (eng0 : σ) (sm0 : SMState) (file_id command : String) : WsOut σ :=
  let events0 : List Event := [.start]
  let got := get_history sm0 file_id
  let events1 := events0 ++ [.translating]
  match Tr command got.1 with
  | [] => ⟨events1 ++ [.errorEv "❌ 任务拆分失败"], got.2, eng0, [], []⟩
  | t :: ts =>
      if ts.isEmpty && is_task_list_response t then
        run_task_list E Tr eng0 got.2 file_id (t.task_list.getD []) events1
      else
        let st0 : LoopSt σ := ⟨eng0, got.2, [], [], 0, true, events1⟩
        match run_batched E file_id command (t :: ts).length 1 (t :: ts) st0 with
        | (st, .returned) => ⟨st.events, st.sm, st.eng, st.files, st.log⟩
        | (st, _) => finalize_batched file_id command st

/-! ## Concrete fixtures used to evaluate the model on explicit inputs -/

/-- A small concrete configuration: `然后` ("then") as complex marker,
`它` ("it") as contextual marker, no tool groups. -/
def envW : Env :=
  { complex_markers := ["然后"], contextual_markers := ["它"],
    tool_groups := [], all_tools := ["set_column_value"], help_message := "HELP" }

/-- A capability whose single-task answer reveals how many history messages
were attached (as the free-text reply), and whose coordinator and router
always raise. -/
def capEcho : Capability :=
  { coordinator := fun _ _ => .error "boom",
    router := fun _ => .error "boom",
    single := fun _ _ history _ =>
      .ok { tool_calls := [], content := some (toString history.length) } }

/-- A capability that is rate-limited on every call: each call raises an
exception whose text carries the `429` / `rate_limit` signal. -/
def capRateLimited : Capability :=
  { coordinator := fun _ _ => .error "429 rate_limit exceeded",
    router := fun _ => .error "429 rate_limit exceeded",
    single := fun _ _ _ _ => .error "429 rate_limit exceeded" }

/-- A concrete engine over `List String` states (the list of executed
operation names): `op_fail` is rejected with an unknown-column error and
leaves the state unchanged, every other operation succeeds and appends its
name. -/
def engLog : EngineM (List String) :=
  { execute_tool := fun s name _ =>
      if name = "op_fail" then
        ({ success := false, error := some "列不存在" }, s)
      else
        ({ success := true, message := some ("✅ " ++ name ++ " 执行成功") }, s ++ [name]) }

/-- Translator behaviour for the C3 run: the command decomposes into two
subtasks, subtask `t1` maps to the failing operation, subtask `t2` to a
succeeding one. -/
def trFailThenOk : String → List Msg → List AIResponse := fun cmd _ =>
  if cmd = "全部指令" then [create_task_list_response ["t1", "t2"]]
  else if cmd = "t1" then [create_tool_calls_response [⟨"op_fail", []⟩]]
  else [create_tool_calls_response [⟨"op2", []⟩]]

/-- Translator behaviour for the C2 run: the command decomposes into two
subtasks and every subtask translation asks for clarification. -/
def trClarifies : String → List Msg → List AIResponse := fun cmd _ =>
  if cmd = "复合指令" then [create_task_list_response ["s1", "s2"]]
  else [create_clarification_response "哪一列？" ["A", "B"]]

/-- Translator behaviour for the C5 run: the command decomposes into two
subtasks, subtask `s1` translates to a help message, subtask `s2` to a
tool call. -/
def trHelpThenOk : String → List Msg → List AIResponse := fun cmd _ =>
  if cmd = "复合指令" then [create_task_list_response ["s1", "s2"]]
  else if cmd = "s1" then [create_help_response "这是帮助"]
  else [create_tool_calls_response [⟨"op2", []⟩]]

def isClarifyEv : Event → Bool
  | .clarify _ _ => true
  | _ => false

/-- A fresh loop state over `List String` engine states. -/
def stW : LoopSt (List String) := ⟨[], initSM 10 3, [], [], 0, true, []⟩

/-! ## Session-memory lemmas -/

theorem enforce_length_le (m : Nat) : ∀ l, (enforce_cache_limit m l).length ≤ m
  | [] => by simp [enforce_cache_limit]
  | e :: rest => by
      unfold enforce_cache_limit
      split
      · exact enforce_length_le m rest
      · exact Nat.le_of_not_lt (by assumption)

theorem enforce_of_le (m : Nat) : ∀ l : List (String × List Msg), l.length ≤ m →
    enforce_cache_limit m l = l
  | [], _ => rfl
  | e :: rest, h => by
      unfold enforce_cache_limit
      rw [if_neg (Nat.not_lt_of_le h)]

theorem mem_enforce (m : Nat) : ∀ {l e}, e ∈ enforce_cache_limit m l → e ∈ l
  | [], e => by simp [enforce_cache_limit]
  | x :: rest, e => by
      unfold enforce_cache_limit
      split
      · exact fun h => List.mem_cons_of_mem x (mem_enforce m h)
      · exact id

theorem get_history_maxSessions (s : SMState) (fid : String) :
    ((get_history s fid).2).maxSessions = s.maxSessions := by
  unfold get_history; cases s.cache.find? (fun e => e.1 == fid) <;> rfl

theorem get_history_maxRounds (s : SMState) (fid : String) :
    ((get_history s fid).2).maxRounds = s.maxRounds := by
  unfold get_history; cases s.cache.find? (fun e => e.1 == fid) <;> rfl

theorem get_history_length (s : SMState) (fid : String) :
    ((get_history s fid).2).cache.length = s.cache.length := by
  unfold get_history
  cases hf : s.cache.find? (fun e => e.1 == fid) with
  | none => rfl
  | some e =>
      have hmem := List.mem_of_find?_eq_some hf
      have hpos : 1 ≤ s.cache.length := List.length_pos.mpr (List.ne_nil_of_mem hmem)
      have hp := List.find?_some hf
      have herase : (s.cache.eraseP (fun x => x.1 == fid)).length = s.cache.length - 1 :=
        List.length_eraseP_of_mem hmem hp
      simp only [List.length_append, List.length_singleton, herase]
      omega

theorem get_history_mem (s : SMState) (fid : String) :
    ∀ e ∈ ((get_history s fid).2).cache, e ∈ s.cache ∨
      ∃ h, s.cache.find? (fun x => x.1 == fid) = some h ∧ e = (fid, h.2) := by
  unfold get_history
  cases hf : s.cache.find? (fun e => e.1 == fid) with
  | none => exact fun e he => Or.inl he
  | some x =>
      intro e he
      rcases List.mem_append.mp he with h1 | h1
      · exact Or.inl (List.eraseP_subset _ h1)
      · exact Or.inr ⟨x, rfl, by simpa using h1⟩

theorem applySMOp_get (s : SMState) (fid : String) :
    applySMOp s (SMOp.get fid) = (get_history s fid).2 := rfl

theorem applySMOp_update (s : SMState) (fid u a : String) :
    applySMOp s (SMOp.update fid u a) = update_history s fid u a := rfl

theorem applySMOp_clear (s : SMState) (fid : String) :
    applySMOp s (SMOp.clear fid) = clear_history s fid := rfl

theorem clear_history_maxSessions (s : SMState) (fid : String) :
    (clear_history s fid).maxSessions = s.maxSessions := by
  unfold clear_history; split <;> rfl

theorem clear_history_maxRounds (s : SMState) (fid : String) :
    (clear_history s fid).maxRounds = s.maxRounds := by
  unfold clear_history; split <;> rfl

theorem applySMOp_maxSessions (s : SMState) (op : SMOp) :
    (applySMOp s op).maxSessions = s.maxSessions := by
  cases op with
  | get fid => exact get_history_maxSessions s fid
  | update fid u a => rfl
  | clear fid => rw [applySMOp_clear]; exact clear_history_maxSessions s fid

theorem applySMOp_maxRounds (s : SMState) (op : SMOp) :
    (applySMOp s op).maxRounds = s.maxRounds := by
  cases op with
  | get fid => exact get_history_maxRounds s fid
  | update fid u a => rfl
  | clear fid => rw [applySMOp_clear]; exact clear_history_maxRounds s fid

theorem applySMOp_capacity (s : SMState) (op : SMOp) (h : s.cache.length ≤ s.maxSessions) :
    (applySMOp s op).cache.length ≤ s.maxSessions := by
  cases op with
  | get fid => rw [applySMOp_get, get_history_length]; exact h
  | update fid u a => exact enforce_length_le s.maxSessions _
  | clear fid =>
      rw [applySMOp_clear]
      unfold clear_history
      split
      · exact le_trans (List.length_eraseP_le _) h
      · exact h

theorem runSMOps_capacity : ∀ (ops : List SMOp) (s : SMState),
    s.cache.length ≤ s.maxSessions →
    (runSMOps s ops).cache.length ≤ s.maxSessions
  | [], s, h => h
  | op :: ops, s, h => by
      have step := applySMOp_capacity s op h
      have := runSMOps_capacity ops (applySMOp s op)
        (by rw [applySMOp_maxSessions]; exact step)
      rw [applySMOp_maxSessions] at this
      exact this

/-- With at least one round allowed, the truncation applied by
`update_history` bounds the stored history by `max_messages`. -/
theorem trunc_length_le (m2 : Nat) (hm : 1 ≤ m2) (l : List Msg) :
    (if l.length > m2 then pySliceLast m2 l else l).length ≤ m2 := by
  split
  · unfold pySliceLast
    rw [if_neg (by omega)]
    simp only [List.length_drop]
    omega
  · omega

theorem applySMOp_hist (s : SMState) (op : SMOp) (hmr : 1 ≤ s.maxRounds)
    (h : ∀ e ∈ s.cache, e.2.length ≤ 2 * s.maxRounds) :
    ∀ e ∈ (applySMOp s op).cache, e.2.length ≤ 2 * s.maxRounds := by
  cases op with
  | get fid =>
      intro e he
      rw [applySMOp_get] at he
      rcases get_history_mem s fid e he with h1 | ⟨x, hx, rfl⟩
      · exact h e h1
      · exact h x (List.mem_of_find?_eq_some hx)
  | clear fid =>
      rw [applySMOp_clear]
      unfold clear_history
      split
      · exact fun e he => h e (List.eraseP_subset _ he)
      · exact h
  | update fid u a =>
      intro e he
      rw [applySMOp_update] at he
      have he1 := mem_enforce s.maxSessions he
      have hbound : ∀ v : List Msg,
          (if v.length > s.maxRounds * 2 then pySliceLast (s.maxRounds * 2) v else v).length
            ≤ 2 * s.maxRounds := by
        intro v
        have := trunc_length_le (s.maxRounds * 2) (by omega) v
        omega
      unfold update_history setKey at he1
      split at he1
      · rcases List.mem_map.mp he1 with ⟨x, hx, hfx⟩
        by_cases hk : (x.1 == fid) = true
        · rw [if_pos hk] at hfx
          rw [← hfx]
          exact hbound _
        · rw [if_neg hk] at hfx
          have hx2 : x ∈ s.cache := by
            rcases get_history_mem s fid x hx with h1 | ⟨y, hy, rfl⟩
            · exact h1
            · exact absurd (by simp) hk
          rw [← hfx]
          exact h x hx2
      · rcases List.mem_append.mp he1 with h1 | h1
        · rcases get_history_mem s fid e h1 with h2 | ⟨y, hy, rfl⟩
          · exact h e h2
          · exact h y (List.mem_of_find?_eq_some hy)
        · have : e = (fid, _) := List.mem_singleton.mp h1
          rw [this]
          exact hbound _

theorem runSMOps_hist : ∀ (ops : List SMOp) (s : SMState), 1 ≤ s.maxRounds →
    (∀ e ∈ s.cache, e.2.length ≤ 2 * s.maxRounds) →
    ∀ e ∈ (runSMOps s ops).cache, e.2.length ≤ 2 * s.maxRounds
  | [], _, _, h => h
  | op :: ops, s, hmr, h => by
      have step := applySMOp_hist s op hmr h
      have := runSMOps_hist ops (applySMOp s op)
        (by rw [applySMOp_maxRounds]; exact hmr)
        (by rw [applySMOp_maxRounds]; exact step)
      rw [applySMOp_maxRounds] at this
      exact this

/-! ## Claim theorems: session memory and classifier -/

theorem find?_eq_none_of_fresh (s : SMState) (fid : String)
    (hfresh : fid ∉ s.cache.map Prod.fst) :
    s.cache.find? (fun e => e.1 == fid) = none := by
  rw [List.find?_eq_none]
  intro x hx
  simp only [beq_iff_eq]
  intro hEq
  exact hfresh (hEq ▸ List.mem_map_of_mem Prod.fst hx)

theorem update_fresh_at_capacity (s : SMState) (fid u a : String)
    (hlen : s.cache.length = s.maxSessions) (hpos : 1 ≤ s.maxSessions)
    (hfresh : fid ∉ s.cache.map Prod.fst) :
    update_history s fid u a
      = { s with cache := s.cache.tail ++ [(fid, newRound s.maxRounds u a)] } := by
  have hfind := find?_eq_none_of_fresh s fid hfresh
  have hany : s.cache.any (fun e => e.1 == fid) = false := by
    rw [List.any_eq_false]
    intro x hx
    simp only [beq_iff_eq]
    intro hEq
    exact hfresh (hEq ▸ List.mem_map_of_mem Prod.fst hx)
  obtain ⟨e, rest, hc⟩ : ∃ e rest, s.cache = e :: rest := by
    cases hcc : s.cache with
    | nil => rw [hcc] at hlen; simp at hlen; omega
    | cons e rest => exact ⟨e, rest, rfl⟩
  have hrest : rest.length + 1 = s.maxSessions := by
    have h2 := hlen
    rw [hc] at h2
    simpa using h2
  have henf : ∀ v : List Msg,
      enforce_cache_limit s.maxSessions (s.cache ++ [(fid, v)])
        = s.cache.tail ++ [(fid, v)] := by
    intro v
    rw [hc]
    show enforce_cache_limit s.maxSessions (e :: (rest ++ [(fid, v)])) = _
    have hlt : s.maxSessions < (e :: (rest ++ [(fid, v)])).length := by
      simp only [List.length_cons, List.length_append, List.length_nil]
      omega
    have hle : (rest ++ [(fid, v)]).length ≤ s.maxSessions := by
      simp only [List.length_append, List.length_cons, List.length_nil]
      omega
    unfold enforce_cache_limit
    rw [if_pos hlt, enforce_of_le s.maxSessions (rest ++ [(fid, v)]) hle]
    rfl
  simp only [update_history, get_history, hfind, setKey, hany, Bool.false_eq_true, if_false,
    List.nil_append, SMState.mk.injEq, true_and]
  exact henf _

/-- C7: starting from an empty store, the session store never exceeds
`maxConcurrentSessions` entries; an append of a fresh document to a store at
capacity evicts exactly the least-recently-used entry (the front of the
ordered cache), leaving every other entry unchanged at the back; and a `get`
of a present document moves exactly that entry to the most-recently-used
end. -/
theorem session_store_capacity_lru
    (ms mr : Nat) (ops : List SMOp) (s : SMState) (fid fid2 : String) (u a : String)
    (hlen : s.cache.length = s.maxSessions) (hpos : 1 ≤ s.maxSessions)
    (hfresh : fid ∉ s.cache.map Prod.fst) :
    (runSMOps (initSM ms mr) ops).cache.length ≤ ms
    ∧ update_history s fid u a
        = { s with cache := s.cache.tail ++ [(fid, newRound s.maxRounds u a)] }
    ∧ (∀ h, s.cache.find? (fun e => e.1 == fid2) = some (fid2, h) →
        ((get_history s fid2).2).cache
          = s.cache.eraseP (fun e => e.1 == fid2) ++ [(fid2, h)]) := by
  refine ⟨?_, update_fresh_at_capacity s fid u a hlen hpos hfresh, ?_⟩
  · have h0 : (initSM ms mr).cache.length ≤ (initSM ms mr).maxSessions := by
      simp [initSM]
    exact runSMOps_capacity ops (initSM ms mr) h0
  · intro h hf
    unfold get_history
    rw [hf]

theorem session_store_capacity_lru_witness :
    (runSMOps (initSM 2 3) [SMOp.update "a" "u" "v", SMOp.update "b" "u" "v"]).cache.length ≤ 2
    ∧ update_history ⟨1, 3, [("a", [])]⟩ "b" "u" "v"
        = { maxSessions := 1, maxRounds := 3, cache := [("b", newRound 3 "u" "v")] }
    ∧ ((get_history ⟨1, 3, [("a", [⟨"user", "x"⟩, ⟨"assistant", "y"⟩])]⟩ "a").2).cache
        = ([("a", [⟨"user", "x"⟩, ⟨"assistant", "y"⟩])] :
            List (String × List Msg)).eraseP (fun e => e.1 == "a")
          ++ [("a", [⟨"user", "x"⟩, ⟨"assistant", "y"⟩])] := by
  obtain ⟨h1, h2, -⟩ := session_store_capacity_lru 2 3
    [SMOp.update "a" "u" "v", SMOp.update "b" "u" "v"]
    ⟨1, 3, [("a", [])]⟩ "b" "a" "u" "v" (by decide) (by decide) (by decide)
  obtain ⟨-, -, h3⟩ := session_store_capacity_lru 2 3 []
    ⟨1, 3, [("a", [⟨"user", "x"⟩, ⟨"assistant", "y"⟩])]⟩ "b" "a" "u" "v"
    (by decide) (by decide) (by decide)
  exact ⟨h1, h2, h3 [⟨"user", "x"⟩, ⟨"assistant", "y"⟩] (by decide)⟩

/-- C8 counterexample: with `maxHistoryRounds = 0` the truncation slice is
Python's `history[-0:]`, the whole list, so one append stores a history of
length `2 > 2 * maxHistoryRounds`. -/
theorem history_cap_counterexample :
    2 * (initSM 5 0).maxRounds
      < (((runSMOps (initSM 5 0) [SMOp.update "f" "u" "a"]).cache.headD ("", [])).2).length := by
  decide

/-- C8 amended: for `maxHistoryRounds ≥ 1`, after any operation sequence
every stored history has at most `2 * maxHistoryRounds` messages, and the
truncation always keeps a suffix (the most recent messages, oldest dropped
first).  For `maxHistoryRounds = 0` the bound fails (`history[-0:]` is the
whole list). -/
theorem history_bounded_of_pos_rounds (ms mr : Nat) (hmr : 1 ≤ mr) (ops : List SMOp) :
    histBounded (runSMOps (initSM ms mr) ops) = true
    ∧ ∀ (m : Nat) (l : List Msg), (pySliceLast m l).IsSuffix l := by
  constructor
  · have hmr0 : (runSMOps (initSM ms mr) ops).maxRounds = mr := by
      have : ∀ (ops : List SMOp) (s : SMState), (runSMOps s ops).maxRounds = s.maxRounds := by
        intro ops
        induction ops with
        | nil => intro s; rfl
        | cons op ops ih => intro s; rw [show runSMOps s (op :: ops)
            = runSMOps (applySMOp s op) ops from rfl, ih, applySMOp_maxRounds]
      exact this ops (initSM ms mr)
    unfold histBounded
    rw [List.all_eq_true]
    intro e he
    simp only [decide_eq_true_eq]
    rw [hmr0]
    exact runSMOps_hist ops (initSM ms mr) hmr (by simp [initSM]) e he
  · intro m l
    unfold pySliceLast
    split
    · exact List.suffix_refl l
    · exact List.drop_suffix _ l

theorem history_bounded_of_pos_rounds_witness :
    histBounded (runSMOps (initSM 2 1)
      [SMOp.update "f" "u1" "a1", SMOp.update "f" "u2" "a2", SMOp.update "f" "u3" "a3"]) = true
    ∧ (pySliceLast 1 [Msg.mk "user" "u"]).IsSuffix [Msg.mk "user" "u"] := by
  obtain ⟨h1, h2⟩ := history_bounded_of_pos_rounds 2 1 (by decide)
    [SMOp.update "f" "u1" "a1", SMOp.update "f" "u2" "a2", SMOp.update "f" "u3" "a3"]
  exact ⟨h1, h2 1 [Msg.mk "user" "u"]⟩

theorem is_complex_eq (cm : List String) (c : String) :
    is_complex_command cm c
      = (cm.any (fun m => strContains (pyLower c) (pyLower m)) || !(c.length < 50)) := by
  unfold is_complex_command
  by_cases h : cm.any (fun m => strContains (pyLower c) (pyLower m))
  · simp [h]
  · by_cases h2 : c.length < 50 <;> simp [h, h2]

/-- C9: `isCompound` is exactly: some configured marker occurs
case-insensitively in the command, or the command is at least 50 characters
long; marker-free commands of length < 50 are classified simple. -/
theorem isCompound_iff (complex_markers : List String) (command : String) :
    is_complex_command complex_markers command = true ↔
      ((∃ m ∈ complex_markers, strContains (pyLower command) (pyLower m) = true)
        ∨ 50 ≤ command.length) := by
  rw [is_complex_eq]
  simp [List.any_eq_true, Nat.not_lt]

/-- C10: every response built by a convenience constructor or by
`from_openai_response` satisfies: `success = false` iff the variant is
`error`; every non-error variant carries `success = true`. -/
theorem success_iff_not_error :
    (∀ tcs, ((create_tool_calls_response tcs).success = false
        ↔ (create_tool_calls_response tcs).response_type = AIResponseType.error))
    ∧ (∀ q o, ((create_clarification_response q o).success = false
        ↔ (create_clarification_response q o).response_type = AIResponseType.error))
    ∧ (∀ m, ((create_help_response m).success = false
        ↔ (create_help_response m).response_type = AIResponseType.error))
    ∧ (∀ m, ((create_friendly_message_response m).success = false
        ↔ (create_friendly_message_response m).response_type = AIResponseType.error))
    ∧ (∀ ts, ((create_task_list_response ts).success = false
        ↔ (create_task_list_response ts).response_type = AIResponseType.error))
    ∧ (∀ e c, ((create_error_response e c).success = false
        ↔ (create_error_response e c).response_type = AIResponseType.error))
    ∧ (∀ msg, ((from_openai_response msg).success = false
        ↔ (from_openai_response msg).response_type = AIResponseType.error)) := by
  refine ⟨?_, ?_, ?_, ?_, ?_, ?_, ?_⟩
  · intro tcs; simp [create_tool_calls_response]
  · intro q o; simp [create_clarification_response]
  · intro m; simp [create_help_response]
  · intro m; simp [create_friendly_message_response]
  · intro ts; simp [create_task_list_response]
  · intro e c; simp [create_error_response]
  · intro msg
    obtain ⟨tcs, content⟩ := msg
    cases tcs with
    | nil => simp [from_openai_response, create_friendly_message_response]
    | cons first rest =>
        by_cases hn : first.function.name = "ask_clarification_question"
        · cases ha : first.function.arguments with
          | none => simp [from_openai_response, hn, ha, create_error_response]
          | some args => simp [from_openai_response, hn, ha, create_clarification_response]
        · cases hp : parseToolCalls (first :: rest) with
          | none => simp [from_openai_response, hn, hp, create_error_response]
          | some l => simp [from_openai_response, hn, hp, create_tool_calls_response]

/-- C1 counterexample: for a simple non-contextual command with two history
messages, the direct path's outcome differs from a direct translation with
no history attached — the structured call does see the most recent round. -/
theorem direct_path_history_counterexample :
    translate envW capEcho "set tax" ["A"] [⟨"user", "u"⟩, ⟨"assistant", "a"⟩]
      ≠ [translate_single_task envW capEcho "set tax" ["A"] []] := by
  decide

/-- C1 (amended): for a command that is neither compound nor
context-dependent, `translate` performs one direct single-task translation
carrying only the most recent round of history (`history[-2:]`, at most two
messages, a suffix of the history); only with empty (or one-message)
history is nothing more attached. -/
theorem direct_path_attaches_recent_round (env : Env) (cap : Capability)
    (cmd : String) (headers : List String) (history : List Msg)
    (hc : is_complex_command env.complex_markers cmd = false)
    (hx : is_contextual_command env.contextual_markers cmd history = false) :
    translate env cap cmd headers history
      = [translate_single_task env cap cmd headers (recentRound history)]
    ∧ (recentRound history).length ≤ 2
    ∧ (recentRound history).IsSuffix history := by
  refine ⟨?_, ?_, ?_⟩
  · unfold translate
    rw [hc, hx]
    simp
  · unfold recentRound
    split
    · simp only [List.length_drop]
      omega
    · omega
  · unfold recentRound
    split
    · exact List.drop_suffix _ _
    · exact List.suffix_refl _

theorem direct_path_attaches_recent_round_witness :
    translate envW capEcho "set tax" ["A"] [⟨"user", "u"⟩, ⟨"assistant", "a"⟩]
      = [translate_single_task envW capEcho "set tax" ["A"]
          (recentRound [⟨"user", "u"⟩, ⟨"assistant", "a"⟩])]
    ∧ (recentRound [⟨"user", "u"⟩, ⟨"assistant", "a"⟩]).length ≤ 2
    ∧ (recentRound [⟨"user", "u"⟩, ⟨"assistant", "a"⟩]).IsSuffix
        [⟨"user", "u"⟩, ⟨"assistant", "a"⟩] :=
  direct_path_attaches_recent_round envW capEcho "set tax" ["A"]
    [⟨"user", "u"⟩, ⟨"assistant", "a"⟩] (by decide) (by decide)

/-- C4 (code bug): a rate-limit exception raised by the capability during a
compound command's pipeline is swallowed: the coordinator's blanket
`except` turns it into "decomposition unavailable", and the single-task
fallback's blanket `except` turns it into a `TRANSLATION_FAILED` error
response — nothing propagates to the caller, even though the source's own
handler in `translate` documents that a 429 must be re-raised for the
caller to retry. -/
theorem rate_limit_converted_to_error :
    translate envW capRateLimited "把A设为1然后把B设为2" ["A", "B"] []
      = [create_error_response "AI翻译失败: 429 rate_limit exceeded"
          (some "TRANSLATION_FAILED")]
    ∧ call_coordinator capRateLimited "把A设为1然后把B设为2" [] = none := by
  exact ⟨by decide, rfl⟩

/-- C6: when decomposition of a compound command is unavailable — the
coordinator yields nothing or exactly one subtask — `translate` returns
exactly one contextual single-task translation of the original command with
the full history, which is literally the same outcome path B (simple
contextual command) produces: no double translation. -/
theorem decomposition_fallback_eq_contextual (env : Env) (cap : Capability)
    (cmd cmd2 : String) (headers : List String) (history : List Msg) (t : String)
    (hc : is_complex_command env.complex_markers cmd = true)
    (hd : call_coordinator cap cmd history = none
        ∨ call_coordinator cap cmd history = some [t])
    (hc2 : is_complex_command env.complex_markers cmd2 = false)
    (hx2 : is_contextual_command env.contextual_markers cmd2 history = true) :
    translate env cap cmd headers history
      = [translate_single_task env cap cmd headers history]
    ∧ translate env cap cmd2 headers history
      = [translate_single_task env cap cmd2 headers history] := by
  constructor
  · unfold translate
    rw [hc]
    rcases hd with hd | hd <;> rw [hd] <;> simp
  · unfold translate
    rw [hc2, hx2]
    simp

theorem decomposition_fallback_eq_contextual_witness :
    translate envW capEcho "把A设为1然后把B设为2" ["A"] []
      = [translate_single_task envW capEcho "把A设为1然后把B设为2" ["A"] []]
    ∧ translate envW capEcho "把它改为0" ["A"] []
      = [translate_single_task envW capEcho "把它改为0" ["A"] []] :=
  decomposition_fallback_eq_contextual envW capEcho "把A设为1然后把B设为2" "把它改为0"
    ["A"] [] "x" (by decide) (Or.inl (by decide)) (by decide) (by decide)

/-- C2 counterexample: a decomposed run whose first subtask translates to a
clarification halts, but the event stream carries no `clarify` event at
all — the clarification is not surfaced as a question plus option list. -/
theorem clarification_surfacing_counterexample :
    trClarifies "s1" [] = [create_clarification_response "哪一列？" ["A", "B"]]
    ∧ (execute_with_streaming engLog trClarifies [] (initSM 10 3) "f" "复合指令").events.filter
        isClarifyEv = []
    ∧ Event.translatingSubtask 2 2
        ∉ (execute_with_streaming engLog trClarifies [] (initSM 10 3) "f" "复合指令").events := by
  decide

/-- C2 (amended): a Clarification translation halts the run immediately in
both execution paths — no further subtask is translated or executed — but
it is surfaced as a question plus option list only in the direct (batched)
path; in the decomposed per-subtask loop the run simply ends as a failed
run (`all_success = false`) with no clarification event. -/
theorem clarification_halts_run (σ : Type) (E : EngineM σ)
    (Tr : String → List Msg → List AIResponse) (file_id command subtask : String)
    (initial_history : List Msg) (total i : Nat) (rest : List String)
    (restR : List AIResponse) (st stB : LoopSt σ) (tr trB : AIResponse)
    (trs : List AIResponse) (c : ClarificationRequest)
    (hB1 : trB.success = true) (hB2 : trB.response_type = AIResponseType.clarification)
    (hB3 : trB.clarification = some c)
    (hTr : Tr subtask (if i > 1 then (get_history st.sm file_id).1 else initial_history)
        = tr :: trs)
    (hD1 : tr.success = true) (hD2 : tr.response_type = AIResponseType.clarification) :
    run_batched E file_id command total i (trB :: restR) stB
      = ({ stB with events := stB.events ++ [Event.taskStart i total,
            Event.clarify c.question c.options] }, LoopExit.returned)
    ∧ run_subtasks E Tr file_id initial_history total i (subtask :: rest) st
      = { st with
          sm := if i > 1 then (get_history st.sm file_id).2 else st.sm,
          allSuccess := false,
          events := st.events ++ [Event.translatingSubtask i total, Event.subtaskTranslated i,
            Event.taskStart i total] } := by
  constructor
  · simp only [run_batched, hB1, hB2, hB3, is_clarification_response, is_tool_calls_response]
    simp [List.append_assoc]
  · simp only [run_subtasks, hTr, hD1, hD2, is_tool_calls_response]
    simp [List.append_assoc]

theorem clarification_halts_run_witness :
    run_batched engLog "f" "c" 2 1 [create_clarification_response "哪一列？" ["A", "B"]] stW
      = ({ stW with events := stW.events ++ [Event.taskStart 1 2,
            Event.clarify "哪一列？" ["A", "B"]] }, LoopExit.returned)
    ∧ run_subtasks engLog (fun _ _ => [create_clarification_response "哪一列？" ["A", "B"]])
        "f" [] 2 1 ["s1", "s2"] stW
      = { stW with
          sm := if 1 > 1 then (get_history stW.sm "f").2 else stW.sm,
          allSuccess := false,
          events := stW.events ++ [Event.translatingSubtask 1 2, Event.subtaskTranslated 1,
            Event.taskStart 1 2] } :=
  clarification_halts_run (List String) engLog
    (fun _ _ => [create_clarification_response "哪一列？" ["A", "B"]]) "f" "c" "s1" [] 2 1
    ["s2"] [] stW stW (create_clarification_response "哪一列？" ["A", "B"])
    (create_clarification_response "哪一列？" ["A", "B"]) []
    ⟨"哪一列？", ["A", "B"], none, none⟩ rfl rfl rfl rfl rfl rfl

/-- C3 (code bug): in the decomposed per-subtask loop the failure `break`
only exits the inner tool-call loop, so after subtask 1 fails execution the
orchestrator still translates and executes subtask 2 and persists its
effect: the events show `task_error` for subtask 1 and then the translation
and success of subtask 2; the final engine state contains subtask 2's
operation; and the persisted result artifact is that state — not the state
after the last subtask before the failure. -/
theorem execution_failure_continues_run :
    Event.taskError 1 "❌ 任务 1 执行失败: 列不存在"
        ∈ (execute_with_streaming engLog trFailThenOk [] (initSM 10 3) "f" "全部指令").events
    ∧ Event.translatingSubtask 2 2
        ∈ (execute_with_streaming engLog trFailThenOk [] (initSM 10 3) "f" "全部指令").events
    ∧ Event.taskSuccess 2 "✅ op2 执行成功"
        ∈ (execute_with_streaming engLog trFailThenOk [] (initSM 10 3) "f" "全部指令").events
    ∧ (execute_with_streaming engLog trFailThenOk [] (initSM 10 3) "f" "全部指令").eng = ["op2"]
    ∧ lookupFile
        (execute_with_streaming engLog trFailThenOk [] (initSM 10 3) "f" "全部指令").files
        (result_path "f") = some ["op2"] := by
  decide

/-- C5 counterexample: a decomposed run whose first subtask translates to a
Help message does not record the message and does not advance to the second
subtask — the run halts instead. -/
theorem help_skip_counterexample :
    trHelpThenOk "s1" [] = [create_help_response "这是帮助"]
    ∧ Event.translatingSubtask 2 2
        ∉ (execute_with_streaming engLog trHelpThenOk [] (initSM 10 3) "f" "复合指令").events
    ∧ Event.helpEv "这是帮助"
        ∉ (execute_with_streaming engLog trHelpThenOk [] (initSM 10 3) "f" "复合指令").events
    ∧ (execute_with_streaming engLog trHelpThenOk [] (initSM 10 3) "f" "复合指令").log = [] := by
  decide

/-- C5 (amended): in the batched (direct) path a Help or FriendlyMessage
response is recorded in the execution log, emitted as an event, and the
loop advances to the next response without executing anything — engine
state, session store, files and checkpoint index unchanged.  In the
decomposed per-subtask loop, however, a Help or FriendlyMessage subtask
response halts the run without recording its message and without reaching
the next subtask. -/
theorem help_friendly_handling (σ : Type) (E : EngineM σ)
    (Tr : String → List Msg → List AIResponse) (file_id command subtask : String)
    (initial_history : List Msg) (total i : Nat) (rest : List String)
    (restR : List AIResponse) (st stB stH : LoopSt σ) (tr trF trH : AIResponse)
    (trs : List AIResponse)
    (hF1 : trF.success = true) (hF2 : trF.response_type = AIResponseType.friendly_message)
    (hH1 : trH.success = true) (hH2 : trH.response_type = AIResponseType.help)
    (hTr : Tr subtask (if i > 1 then (get_history st.sm file_id).1 else initial_history)
        = tr :: trs)
    (hD1 : tr.success = true)
    (hD2 : tr.response_type = AIResponseType.help
        ∨ tr.response_type = AIResponseType.friendly_message) :
    run_batched E file_id command total i (trF :: restR) stB
      = run_batched E file_id command total (i + 1) restR
          { stB with
            log := stB.log ++ [pyOr trF.message ""],
            events := stB.events ++ [Event.taskStart i total,
              Event.infoEv (pyOr trF.message "")] }
    ∧ run_batched E file_id command total i (trH :: restR) stH
      = run_batched E file_id command total (i + 1) restR
          { stH with
            log := stH.log ++ [pyOr trH.message ""],
            events := stH.events ++ [Event.taskStart i total,
              Event.helpEv (pyOr trH.message "")] }
    ∧ run_subtasks E Tr file_id initial_history total i (subtask :: rest) st
      = { st with
          sm := if i > 1 then (get_history st.sm file_id).2 else st.sm,
          allSuccess := false,
          events := st.events ++ [Event.translatingSubtask i total, Event.subtaskTranslated i,
            Event.taskStart i total] } := by
  refine ⟨?_, ?_, ?_⟩
  · simp only [run_batched, hF1, hF2]
    simp [List.append_assoc]
  · simp only [run_batched, hH1, hH2]
    simp [List.append_assoc]
  · rcases hD2 with hD2 | hD2 <;>
      simp only [run_subtasks, hTr, hD1, hD2, is_tool_calls_response] <;>
      simp [List.append_assoc]

theorem help_friendly_handling_witness :
    run_batched engLog "f" "c" 2 1 [create_friendly_message_response "提示"] stW
      = run_batched engLog "f" "c" 2 2 []
          { stW with
            log := stW.log ++ [pyOr (create_friendly_message_response "提示").message ""],
            events := stW.events ++ [Event.taskStart 1 2,
              Event.infoEv (pyOr (create_friendly_message_response "提示").message "")] }
    ∧ run_batched engLog "f" "c" 2 1 [create_help_response "这是帮助"] stW
      = run_batched engLog "f" "c" 2 2 []
          { stW with
            log := stW.log ++ [pyOr (create_help_response "这是帮助").message ""],
            events := stW.events ++ [Event.taskStart 1 2,
              Event.helpEv (pyOr (create_help_response "这是帮助").message "")] }
    ∧ run_subtasks engLog (fun _ _ => [create_help_response "这是帮助"]) "f" [] 2 1
        ["s1", "s2"] stW
      = { stW with
          sm := if 1 > 1 then (get_history stW.sm "f").2 else stW.sm,
          allSuccess := false,
          events := stW.events ++ [Event.translatingSubtask 1 2, Event.subtaskTranslated 1,
            Event.taskStart 1 2] } :=
  help_friendly_handling (List String) engLog (fun _ _ => [create_help_response "这是帮助"])
    "f" "c" "s1" [] 2 1 ["s2"] [] stW stW stW (create_help_response "这是帮助")
    (create_friendly_message_response "提示") (create_help_response "这是帮助") []
    rfl rfl rfl rfl rfl rfl (Or.inl rfl)

end Merlin
